import Mathlib

/-!
Verification of the data-extraction and chart-styling modules of the
Alternative-ESG-data codebase (files `src/data/gtrends_extract.py` and
`src/visuals/tsf_plots.py`).

The Python functions are shallowly embedded as Lean definitions.  Network
effects (the pytrends calls) are modelled by outcome oracles: a function from
attempt indices to `Except`, standing for "the call raised" / "the call
returned this value".  Randomness (`randint(a, b)`) is modelled by recording
the inclusive interval `[a, b]` the value is drawn from.  The file system is
modelled explicitly (an optional current file content passed in, the new
content returned).
-/

set_option autoImplicit false

namespace AltESG

universe u

/-! Definitions.

Python list utilities from `gtrends_extract.py` (lines 213-233).

Model `pythonRangeFuel` of the Python builtin `range(start, stop, step)` for a
nonnegative step.  The fuel argument (instantiated with `stop - start`, a
bound on the number of yielded elements since each iteration advances
`start` by `step ≥ 1`) makes the recursion structural, hence computable by
the kernel; the lemmas `pythonRange_pos` / `pythonRange_stop` restate the
Python loop semantics.  Python raises `ValueError` on `step = 0`; that case
returns `[]` here and lies outside every claim (they all take a positive
batch size).  The slice `lst[i:i+n]` for `i, n ≥ 0` is `(lst.drop i).take n`:
both clamp at the end of the list. -/

def pythonRangeFuel (step : Nat) : Nat → Nat → Nat → List Nat
  | 0, _, _ => []
  | Nat.succ fuel, start, stop =>
    if 0 < step ∧ start < stop then
      start :: pythonRangeFuel step fuel (start + step) stop
    else
      []

def pythonRange (start stop step : Nat) : List Nat :=
  pythonRangeFuel step (stop - start) start stop

/-- Model of `list_flatten(nested_list)`, the comprehension flattening one nesting level. -/
def list_flatten {α : Type u} (nested_list : List (List α)) : List α :=
  nested_list.flatten

/-- Model of `n_batch(lst, n)`, the generator yielding the slice of `n` items
starting at each index of `range(0, len(lst), n)`, collected into the list of
yielded chunks. -/
def n_batch {α : Type u} (lst : List α) (n : Nat) : List (List α) :=
  (pythonRange 0 lst.length n).map (fun i => (lst.drop i).take n)

/-- Model of `list_batch(lst, n) = list(n_batch(lst=lst, n=n))`. -/
def list_batch {α : Type u} (lst : List α) (n : Nat) : List (List α) :=
  n_batch lst n

/-! CSV persistence, `df_to_csv` (lines 236-243).

A CSV-writable frame is a header row plus data rows.  A file is `none` when
`os.path.isfile(filepath)` is false; otherwise `some content` with `content`
the list of records currently in the file.  `df.to_csv(filepath, index=False)`
writes the header row followed by the data rows; with header disabled and append mode
it appends the data rows to the existing content. -/

structure CsvFrame where
  header : List String
  rows : List (List String)
deriving DecidableEq, Repr

def df_to_csv (df : CsvFrame) (file : Option (List (List String))) : List (List String) :=
  match file with
  | none => df.header :: df.rows
  | some content => content ++ df.rows

/-! Interest-over-time result handling, `handle_query_results` (lines 117-154).

The raw `interest_over_time` result is a frame indexed by date with one
`Int` column per keyword plus the `isPartial` column (here the field
`partFlags`).  `df.shape[0] != 0` is `dates.length ≠ 0`.  In the non-empty
branch the code does `reset_index()` (date becomes a column),
the drop of the isPartial column (the flag column is discarded) and
the melt with id_vars date, var_name keyword, value_name search_interest,
which stacks the keyword columns in order: for each column `(kw, vals)` and
each row, one long row `(date, kw, val)` — `meltLong` below.  In the empty
branch the code evaluates `np.zeros(...)` at line 147, but the module never
imports numpy, so Python raises a NameError about the name np;
the embedding returns that error. -/

structure WideResult where
  dates : List String
  cols : List (String × List Int)
  partFlags : List Bool
deriving DecidableEq, Repr

structure LongRow where
  date : String
  keyword : String
  search_interest : Int
deriving DecidableEq, Repr

def meltLong (dates : List String) (cols : List (String × List Int)) : List LongRow :=
  cols.flatMap (fun c => (dates.zip c.2).map (fun p => { date := p.1, keyword := c.1, search_interest := p.2 }))

def handle_query_results (df_query_result : WideResult) (keywords : List String)
    (date_index : Option (List String)) (query_length : Nat) : Except String (List LongRow) :=
  if df_query_result.dates.length ≠ 0 then
    Except.ok (meltLong df_query_result.dates df_query_result.cols)
  else
    Except.error "NameError: name np is not defined"

/-! Related queries, lines 26-102.

`pytrends.related_queries()` returns a dict mapping each keyword to a dict
mapping a ranking (`top` / `rising`) to a frame or `None`; modelled as
ordered association lists.  `get_related_queries` wraps the two pytrends
calls in `try/except Exception`: the oracle `outcome` is `ok response` when
they return, `error e` when they raise.  On failure the initial
`pd.DataFrame()` (a frame, not a dict) is returned, so the value space is
the sum `RelValue`.  `unpack_related_queries_response` asserts
`isinstance(response, dict)` with message "Empty response. Try again.";
passing the frame trips that assertion.  On a dict it computes
`ranking = [*response[[*response][0]]]` (keys of the first value; an empty
dict raises `IndexError`) and `keywords = [*response]` (all keys).
`process_related_query_response` looks up `response[kw][ranking]` and
broadcasts the four constant columns onto every row; any failure (missing
key, or the value is `None`, on which the column assignment raises) is
caught and yields the empty frame with the six fixed columns.
`create_related_queries_dataframe` concatenates one frame per
(ranking, keyword) pair; `pd.concat` on an empty list raises `ValueError`. -/

structure RelDF where
  columns : List String
  rows : List (List String)
deriving DecidableEq, Repr

abbrev RelResponse := List (String × List (String × Option RelDF))

inductive RelValue where
  | dict (d : RelResponse)
  | frame (d : RelDF)
deriving DecidableEq

/-- The initial `df_related_queries = pd.DataFrame()` of line 41. -/
def emptyRelDF : RelDF :=
  { columns := [], rows := [] }

def get_related_queries (outcome : Except String RelResponse) : RelValue :=
  match outcome with
  | Except.ok r => RelValue.dict r
  | Except.error _ => RelValue.frame emptyRelDF

def unpack_related_queries_response (response : RelValue) :
    Except String (RelResponse × List String × List String) :=
  match response with
  | RelValue.frame _ => Except.error "AssertionError: Empty response. Try again."
  | RelValue.dict d =>
    match d with
    | [] => Except.error "IndexError: list index out of range"
    | (_, v0) :: _ => Except.ok (d, v0.map Prod.fst, d.map Prod.fst)

def process_related_query_response (response : RelResponse) (kw ranking geo ts : String) : RelDF :=
  match (response.lookup kw).bind (fun m => m.lookup ranking) with
  | some (some df) =>
    { columns := df.columns ++ ["keyword", "ranking", "geo", "query_timestamp"]
      rows := df.rows.map (fun r => r ++ [kw, ranking, geo, ts]) }
  | _ =>
    { columns := ["query", "value", "keyword", "ranking", "geo", "query_timestamp"], rows := [] }

def pdConcat (dfs : List RelDF) : Except String RelDF :=
  match dfs with
  | [] => Except.error "ValueError: No objects to concatenate"
  | d :: _ => Except.ok { columns := d.columns, rows := dfs.flatMap RelDF.rows }

def create_related_queries_dataframe (response : RelResponse) (rankings keywords : List String)
    (geo_description ts : String) : Except String RelDF :=
  pdConcat (rankings.flatMap (fun r =>
    keywords.map (fun kw => process_related_query_response response kw r geo_description ts)))

def get_related_queries_pipeline (outcome : Except String RelResponse)
    (geo_description ts : String) : Except String RelDF :=
  match unpack_related_queries_response (get_related_queries outcome) with
  | Except.error e => Except.error e
  | Except.ok (resp, rankings, keywords) =>
    create_related_queries_dataframe resp rankings keywords geo_description ts

/-! The batching and retry driver `get_interest_over_time` (lines 272-311).

For each batch of 5 keywords the code runs `for attempt in range(max_retries)`.
Each iteration first computes `timeout_randomized = randint(timeout-3, timeout+3)`
(recorded as the interval `[lo, hi]` of an `AttemptRec`), then calls
`query_googletrends(kw_batch, date_index)`.  The call is the network boundary:
the oracle `res` gives, per batch index and per attempt index, either
`error e` (the call raised, the `except` branch runs: `timeout += 3` and a
countdown sleep) or `ok df` (the `else` branch runs: `df_to_csv(df, filepath)`,
a sleep and `break`).  If the `for` loop finishes without `break`, its `else`
clause appends `pd.DataFrame(kw_batch)` to `filepath_unsuccessful`.  A
`BatchRun` records the batch passed to `query_googletrends`, the attempt
records and the single write the batch produced.  `timeout` (default 20) is a
Python int threaded through the whole run; `max_retries` defaults to 3. -/

structure AttemptRec where
  lo : Int
  hi : Int
  success : Bool
deriving DecidableEq, Repr

inductive WriteEvent (δ : Type) where
  | main (df : δ)
  | unsuccessful (batch : List String)
deriving DecidableEq

structure BatchRun (δ : Type) where
  batch : List String
  attempts : List AttemptRec
  event : WriteEvent δ
deriving DecidableEq

def exceptOk {ε δ : Type} : Except ε δ → Bool
  | Except.ok _ => true
  | Except.error _ => false

/-- The inner `for attempt in range(max_retries)` loop, started at attempt
index `attempt` with `fuel` iterations left.  Returns the final `timeout`,
the attempt records, and `some df` iff some attempt succeeded (the `break`). -/
def runAttempts {δ : Type} (res : Nat → Except String δ) (attempt fuel : Nat) (timeout : Int) :
    Int × List AttemptRec × Option δ :=
  match fuel with
  | 0 => (timeout, [], none)
  | Nat.succ fuel =>
    match res attempt with
    | Except.error _ =>
      let rest := runAttempts res (attempt + 1) fuel (timeout + 3)
      (rest.1, { lo := timeout - 3, hi := timeout + 3, success := false } :: rest.2.1, rest.2.2)
    | Except.ok df =>
      (timeout, [{ lo := timeout - 3, hi := timeout + 3, success := true }], some df)

/-- One iteration of the outer `for kw_batch in kw_batches` loop. -/
def runBatch {δ : Type} (res : Nat → Except String δ) (max_retries : Nat)
    (kw_batch : List String) (timeout : Int) : Int × BatchRun δ :=
  let r := runAttempts res 0 max_retries timeout
  match r.2.2 with
  | some df => (r.1, { batch := kw_batch, attempts := r.2.1, event := WriteEvent.main df })
  | none => (r.1, { batch := kw_batch, attempts := r.2.1, event := WriteEvent.unsuccessful kw_batch })

def runBatches {δ : Type} (res : Nat → Nat → Except String δ) (batches : List (List String))
    (bIdx max_retries : Nat) (timeout : Int) : Int × List (BatchRun δ) :=
  match batches with
  | [] => (timeout, [])
  | b :: bs =>
    let r := runBatch (res bIdx) max_retries b timeout
    let rest := runBatches res bs (bIdx + 1) max_retries r.1
    (rest.1, r.2 :: rest.2)

/-- Model of `get_interest_over_time(keyword_list, ..., max_retries, timeout)`:
`kw_batches = list_batch(lst=keyword_list, n=5)`, then the nested retry loop.
Returns the final timeout and one `BatchRun` per batch. -/
def get_interest_over_time {δ : Type} (res : Nat → Nat → Except String δ)
    (keyword_list : List String) (max_retries : Nat) (timeout : Int) :
    Int × List (BatchRun δ) :=
  runBatches res (list_batch keyword_list 5) 0 max_retries timeout

def giotRuns {δ : Type} (res : Nat → Nat → Except String δ) (keyword_list : List String)
    (max_retries : Nat) (timeout : Int) : List (BatchRun δ) :=
  (get_interest_over_time res keyword_list max_retries timeout).2

/-- All attempt records of a run, in chronological order. -/
def globalLog {δ : Type} (runs : List (BatchRun δ)) : List AttemptRec :=
  (runs.map BatchRun.attempts).flatten

def giotLog {δ : Type} (res : Nat → Nat → Except String δ) (keyword_list : List String)
    (max_retries : Nat) (timeout : Int) : List AttemptRec :=
  globalLog (giotRuns res keyword_list max_retries timeout)

/-- Number of failed attempts among the records. -/
def failCount (recs : List AttemptRec) : Nat :=
  (recs.filter (fun r => !r.success)).length

/-- Invariant `logSpec t L`: starting from timeout `t`, each record in `L` drew its
sleep from `[timeout - 3, timeout + 3]` for the current timeout, and the
timeout moved to `timeout + 3` exactly when the attempt failed. -/
def logSpec : Int → List AttemptRec → Prop
  | _, [] => True
  | t, r :: rest =>
    r.lo = t - 3 ∧ r.hi = t + 3 ∧ logSpec (t + (if r.success = true then 0 else 3)) rest

/-! Chart styling, `set_layout_template` in `tsf_plots.py` (lines 15-66).

`pio.templates` is modelled as a partial map from template names to
templates, `pio.templates.default` as an optional name.  The two entries of
`layout_annotations` are modelled by the `Watermark` structure (the field
`layout_annos` holds them).  `datetime.now().strftime("%d.%B%Y")` is the
input string `now_formatted`.  The float constants are exact decimals,
embedded as rationals. -/

structure Watermark where
  name : String
  text : String
  textangle : Int
  opacity : ℚ
  fontColor : String
  fontSize : Nat
  xref : String
  yref : String
  x : ℚ
  y : ℚ
  showarrow : Bool
deriving DecidableEq

structure PlotlyTemplate where
  layout_colorway : List String
  layout_hovermode : String
  layout_font_family : String
  layout_annos : List Watermark
deriving DecidableEq

structure PlotlyState where
  templates : String → Option PlotlyTemplate
  default_template : Option String

def tsf_colorscale : List String :=
  ["#4d886d", "#f3dab9", "#9bcab8", "#829fa5", "#dc9b4d", "#4a82a1", "#cfaea5", "#D5E6E0"]

def set_layout_template (now_formatted : String) (s : PlotlyState) : PlotlyState :=
  let watermark_date := "Updated " ++ now_formatted
  let watermark_url := "towardssustainablefinance.com"
  { templates := fun nm =>
      if nm = "tsf" then
        some
          { layout_colorway := tsf_colorscale
            layout_hovermode := "closest"
            layout_font_family := "Verdana"
            layout_annos :=
              [ { name := "watermark", text := watermark_url, textangle := 0, opacity := 65/100,
                  fontColor := "#545454", fontSize := 20, xref := "paper", yref := "paper",
                  x := 1, y := -15/100, showarrow := false },
                { name := "watermark2", text := watermark_date, textangle := 0, opacity := 65/100,
                  fontColor := "#545454", fontSize := 16, xref := "paper", yref := "paper",
                  x := 0, y := 1/10, showarrow := false } ] }
      else s.templates nm
    default_template := some "tsf" }

/-! Theorems. -/

theorem pythonRangeFuel_irrel (step : Nat) :
    ∀ f1 f2 start stop, stop - start ≤ f1 → stop - start ≤ f2 →
      pythonRangeFuel step f1 start stop = pythonRangeFuel step f2 start stop := by
  intro f1
  induction f1 with
  | zero =>
    intro f2 start stop h1 h2
    have hns : ¬ start < stop := by omega
    cases f2 with
    | zero => rfl
    | succ f2 =>
      rw [pythonRangeFuel, pythonRangeFuel, if_neg (fun hc => hns hc.2)]
  | succ f1 ih =>
    intro f2 start stop h1 h2
    cases f2 with
    | zero =>
      have hns : ¬ start < stop := by omega
      rw [pythonRangeFuel, pythonRangeFuel, if_neg (fun hc => hns hc.2)]
    | succ f2 =>
      rw [pythonRangeFuel, pythonRangeFuel]
      by_cases hc : 0 < step ∧ start < stop
      · rw [if_pos hc, if_pos hc, ih f2 (start + step) stop (by omega) (by omega)]
      · rw [if_neg hc, if_neg hc]

theorem pythonRange_pos (start stop step : Nat) (hstep : 0 < step) (h : start < stop) :
    pythonRange start stop step = start :: pythonRange (start + step) stop step := by
  unfold pythonRange
  have hf : stop - start = (stop - start - 1) + 1 := by omega
  rw [hf, pythonRangeFuel, if_pos ⟨hstep, h⟩]
  congr 1
  exact pythonRangeFuel_irrel step (stop - start - 1) (stop - (start + step)) (start + step) stop
    (by omega) (by omega)

theorem pythonRange_stop (start stop step : Nat) (h : ¬ start < stop) :
    pythonRange start stop step = [] := by
  unfold pythonRange
  have hf : stop - start = 0 := by omega
  rw [hf, pythonRangeFuel]

theorem pythonRange_zero_step (start stop : Nat) : pythonRange start stop 0 = [] := by
  unfold pythonRange
  cases hf : stop - start with
  | zero => rfl
  | succ f => rw [pythonRangeFuel, if_neg (fun hc => Nat.lt_irrefl 0 hc.1)]

theorem pythonRange_shift_aux (step d : Nat) :
    ∀ fuel start stop, stop - start ≤ fuel →
      pythonRange (start + d) (stop + d) step = (pythonRange start stop step).map (· + d) := by
  intro fuel
  induction fuel with
  | zero =>
    intro start stop h
    rw [pythonRange_stop _ _ _ (by omega), pythonRange_stop _ _ _ (by omega), List.map_nil]
  | succ fuel ih =>
    intro start stop h
    by_cases hstep : 0 < step
    · by_cases hlt : start < stop
      · rw [pythonRange_pos _ _ _ hstep (by omega), pythonRange_pos _ _ _ hstep hlt,
          List.map_cons]
        have heq : start + d + step = (start + step) + d := by omega
        rw [heq, ih (start + step) stop (by omega)]
      · rw [pythonRange_stop _ _ _ (by omega), pythonRange_stop _ _ _ hlt, List.map_nil]
    · have h0 : step = 0 := by omega
      subst h0
      rw [pythonRange_zero_step, pythonRange_zero_step, List.map_nil]

theorem pythonRange_shift (start stop step d : Nat) :
    pythonRange (start + d) (stop + d) step = (pythonRange start stop step).map (· + d) :=
  pythonRange_shift_aux step d (stop - start) start stop (Nat.le_refl _)

theorem n_batch_nil {α : Type u} (n : Nat) : n_batch ([] : List α) n = [] := by
  unfold n_batch
  rw [pythonRange_stop]
  · rfl
  · simp

theorem n_batch_cons {α : Type u} (lst : List α) (n : Nat) (hn : 0 < n) (hne : lst ≠ []) :
    n_batch lst n = lst.take n :: n_batch (lst.drop n) n := by
  unfold n_batch
  have hlen : 0 < lst.length := List.length_pos.mpr hne
  rw [pythonRange_pos 0 lst.length n hn hlen, List.map_cons]
  simp only [List.drop_zero, Nat.zero_add]
  congr 1
  by_cases hcase : n ≤ lst.length
  · have hs := pythonRange_shift 0 (lst.length - n) n n
    simp only [Nat.zero_add] at hs
    have hlen2 : lst.length - n + n = lst.length := by omega
    rw [hlen2] at hs
    rw [hs, List.map_map]
    have hdroplen : (lst.drop n).length = lst.length - n := by simp
    rw [hdroplen]
    apply List.map_congr_left
    intro i _
    simp only [Function.comp_apply]
    rw [List.drop_drop]
    congr 2
    omega
  · rw [pythonRange_stop n lst.length n (by omega)]
    have hdroplen : (lst.drop n).length = 0 := by
      simp only [List.length_drop]
      omega
    rw [hdroplen, pythonRange_stop 0 0 n (by omega)]
    rfl

theorem n_batch_mem_spec {α : Type u} (n : Nat) (hn : 0 < n) :
    ∀ (fuel : Nat) (lst : List α), lst.length ≤ fuel →
      ∀ b ∈ n_batch lst n, b ≠ [] ∧ b.length ≤ n := by
  intro fuel
  induction fuel with
  | zero =>
    intro lst hle b hb
    have hnil : lst = [] := List.eq_nil_of_length_eq_zero (by omega)
    rw [hnil, n_batch_nil] at hb
    exact absurd hb (List.not_mem_nil b)
  | succ fuel ih =>
    intro lst hle b hb
    by_cases hne : lst = []
    · rw [hne, n_batch_nil] at hb
      exact absurd hb (List.not_mem_nil b)
    · rw [n_batch_cons lst n hn hne] at hb
      rcases List.mem_cons.mp hb with hb | hb
      · subst hb
        have hlen : 0 < lst.length := List.length_pos.mpr hne
        constructor
        · apply List.ne_nil_of_length_pos
          rw [List.length_take]
          omega
        · rw [List.length_take]
          omega
      · exact ih (lst.drop n) (by simp only [List.length_drop]; omega) b hb

theorem n_batch_dropLast_spec {α : Type u} (n : Nat) (hn : 0 < n) :
    ∀ (fuel : Nat) (lst : List α), lst.length ≤ fuel →
      ∀ b ∈ (n_batch lst n).dropLast, b.length = n := by
  intro fuel
  induction fuel with
  | zero =>
    intro lst hle b hb
    have hnil : lst = [] := List.eq_nil_of_length_eq_zero (by omega)
    rw [hnil, n_batch_nil] at hb
    exact absurd hb (List.not_mem_nil b)
  | succ fuel ih =>
    intro lst hle b hb
    by_cases hne : lst = []
    · rw [hne, n_batch_nil] at hb
      exact absurd hb (List.not_mem_nil b)
    · rw [n_batch_cons lst n hn hne] at hb
      cases hB : n_batch (lst.drop n) n with
      | nil =>
        rw [hB, List.dropLast_single] at hb
        exact absurd hb (List.not_mem_nil b)
      | cons c cs =>
        rw [hB] at hb
        have hdne : lst.drop n ≠ [] := by
          intro hd
          rw [hd, n_batch_nil] at hB
          exact absurd hB (by simp)
        have hlt : n < lst.length := by
          have := List.length_pos.mpr hdne
          simp only [List.length_drop] at this
          omega
        rw [List.dropLast_cons₂] at hb
        rcases List.mem_cons.mp hb with hb | hb
        · subst hb
          rw [List.length_take]
          omega
        · rw [← hB] at hb
          exact ih (lst.drop n) (by simp only [List.length_drop]; omega) b hb

theorem n_batch_flatten_fuel {α : Type u} (n : Nat) (hn : 0 < n) :
    ∀ (fuel : Nat) (lst : List α), lst.length ≤ fuel →
      list_flatten (n_batch lst n) = lst := by
  intro fuel
  induction fuel with
  | zero =>
    intro lst hle
    have hnil : lst = [] := List.eq_nil_of_length_eq_zero (by omega)
    rw [hnil, n_batch_nil]
    rfl
  | succ fuel ih =>
    intro lst hle
    by_cases hne : lst = []
    · rw [hne, n_batch_nil]
      rfl
    · rw [n_batch_cons lst n hn hne]
      unfold list_flatten at ih ⊢
      rw [List.flatten_cons, ih (lst.drop n) (by simp only [List.length_drop]; omega),
        List.take_append_drop]

theorem n_batch_ne_nil {α : Type u} (lst : List α) (n : Nat) (hn : 0 < n) (hne : lst ≠ []) :
    n_batch lst n ≠ [] := by
  rw [n_batch_cons lst n hn hne]
  exact List.cons_ne_nil _ _

theorem runBatch_batch {δ : Type} (res : Nat → Except String δ) (mR : Nat)
    (b : List String) (t : Int) : ((runBatch res mR b t).2).batch = b := by
  unfold runBatch
  cases h : (runAttempts res 0 mR t).2.2 <;> simp [h]

theorem runBatches_map_batch {δ : Type} (res : Nat → Nat → Except String δ) (mR : Nat) :
    ∀ (batches : List (List String)) (bIdx : Nat) (t : Int),
      ((runBatches res batches bIdx mR t).2).map BatchRun.batch = batches := by
  intro batches
  induction batches with
  | nil => intro bIdx t; rfl
  | cons b bs ih =>
    intro bIdx t
    simp only [runBatches, List.map_cons, runBatch_batch, ih]

/-- C1: for every list `lst` and batch size `n > 0`, `list_batch(lst, n)` (via
the generator `n_batch`) splits `lst` into chunks of length exactly `n`
except possibly the last, which has length between 1 and `n` when `lst` is
non-empty; and `get_interest_over_time` batches its keyword list with
`n = 5`. -/
theorem list_batch_chunks_spec {α : Type u} (lst : List α) (n : Nat) (hn : 0 < n) :
    (∀ b ∈ (list_batch lst n).dropLast, b.length = n) ∧
    (∀ b ∈ list_batch lst n, 1 ≤ b.length ∧ b.length ≤ n) ∧
    (lst ≠ [] → ∃ b, (list_batch lst n).getLast? = some b ∧ 1 ≤ b.length ∧ b.length ≤ n) ∧
    (∀ (δ : Type) (res : Nat → Nat → Except String δ) (kw : List String) (mR : Nat) (t : Int),
      (giotRuns res kw mR t).map BatchRun.batch = list_batch kw 5) := by
  refine ⟨?_, ?_, ?_, ?_⟩
  · exact n_batch_dropLast_spec n hn lst.length lst (Nat.le_refl _)
  · intro b hb
    have h := n_batch_mem_spec n hn lst.length lst (Nat.le_refl _) b hb
    exact ⟨List.length_pos.mpr h.1, h.2⟩
  · intro hne
    have hB : list_batch lst n ≠ [] := n_batch_ne_nil lst n hn hne
    refine ⟨(list_batch lst n).getLast hB, List.getLast?_eq_getLast _ hB, ?_⟩
    have h := n_batch_mem_spec n hn lst.length lst (Nat.le_refl _)
      ((list_batch lst n).getLast hB) (List.getLast_mem hB)
    exact ⟨List.length_pos.mpr h.1, h.2⟩
  · intro δ res kw mR t
    exact runBatches_map_batch res mR (list_batch kw 5) 0 t

theorem list_batch_chunks_spec_witness :
    (0 < 2 ∧ ([1, 2, 3] : List Nat) ≠ []) ∧
    (∀ b ∈ (list_batch ([1, 2, 3] : List Nat) 2).dropLast, b.length = 2) ∧
    (∃ b, (list_batch ([1, 2, 3] : List Nat) 2).getLast? = some b ∧
      1 ≤ b.length ∧ b.length ≤ 2) :=
  ⟨⟨by decide, by decide⟩,
    (list_batch_chunks_spec ([1, 2, 3] : List Nat) 2 (by decide)).1,
    (list_batch_chunks_spec ([1, 2, 3] : List Nat) 2 (by decide)).2.2.1 (by decide)⟩

/-- C8: for every list `lst` and every `n > 0`,
`list_flatten(list_batch(lst, n)) == lst`: flattening the batches
reconstructs the original list exactly, in order. -/
theorem list_flatten_list_batch {α : Type u} (lst : List α) (n : Nat) (hn : 0 < n) :
    list_flatten (list_batch lst n) = lst :=
  n_batch_flatten_fuel n hn lst.length lst (Nat.le_refl _)

theorem list_flatten_list_batch_witness :
    0 < 2 ∧ list_flatten (list_batch ([10, 20, 30, 40, 50] : List Nat) 2) = [10, 20, 30, 40, 50] :=
  ⟨by decide, list_flatten_list_batch ([10, 20, 30, 40, 50] : List Nat) 2 (by decide)⟩

/-- C5: `df_to_csv` writes `df` with the header row iff no file exists at
`filepath`; if the file exists, the rows are appended without a header and
the existing content is left unchanged as a prefix. -/
theorem df_to_csv_spec (df : CsvFrame) (content : List (List String)) :
    df_to_csv df none = df.header :: df.rows ∧
    (df_to_csv df none).head? = some df.header ∧
    df_to_csv df (some content) = content ++ df.rows :=
  ⟨rfl, rfl, rfl⟩

/-- C6: on a non-empty query result, `handle_query_results` drops `isPartial`
and melts to the long columns (date, keyword, search_interest); but on an
empty result the code evaluates `np.zeros` although the module never imports
numpy, so instead of returning the claimed zero-filled frame it raises
`NameError`. -/
theorem handle_query_results_spec :
    handle_query_results
        { dates := ["2021-01-01", "2021-01-08"],
          cols := [("pizza", [10, 20]), ("lufthansa", [30, 40])],
          partFlags := [false, true] }
        ["pizza", "lufthansa"] none 261
      = Except.ok
          [ { date := "2021-01-01", keyword := "pizza", search_interest := 10 },
            { date := "2021-01-08", keyword := "pizza", search_interest := 20 },
            { date := "2021-01-01", keyword := "lufthansa", search_interest := 30 },
            { date := "2021-01-08", keyword := "lufthansa", search_interest := 40 } ] ∧
    handle_query_results { dates := [], cols := [], partFlags := [] }
        ["pizza", "lufthansa"] none 261
      = Except.error "NameError: name np is not defined" :=
  ⟨rfl, rfl⟩

/-- C7: `set_layout_template` registers under the name "tsf" a template with
the 8-color palette, the Verdana font family and the two watermarks (site
URL at paper position x=1, y=-0.15; dated watermark at x=0, y=0.1), and
makes "tsf" the default template. -/
theorem set_layout_template_spec (now_formatted : String) (s : PlotlyState) :
    (set_layout_template now_formatted s).default_template = some "tsf" ∧
    ∃ tmpl, (set_layout_template now_formatted s).templates "tsf" = some tmpl ∧
      tmpl.layout_colorway = tsf_colorscale ∧
      tmpl.layout_colorway.length = 8 ∧
      tmpl.layout_font_family = "Verdana" ∧
      ∃ w1 w2, tmpl.layout_annos = [w1, w2] ∧
        w1.text = "towardssustainablefinance.com" ∧
        w1.xref = "paper" ∧ w1.yref = "paper" ∧ w1.x = 1 ∧ w1.y = -15/100 ∧
        w2.text = "Updated " ++ now_formatted ∧
        w2.xref = "paper" ∧ w2.yref = "paper" ∧ w2.x = 0 ∧ w2.y = 1/10 := by
  refine ⟨rfl, ?_⟩
  refine ⟨_, rfl, rfl, rfl, rfl, ?_⟩
  exact ⟨_, _, rfl, rfl, rfl, rfl, rfl, rfl, rfl, rfl, rfl, rfl, rfl⟩

/-- C9: given a list argument, `get_related_queries` never raises: it returns
the provider response on success and the empty `pd.DataFrame()` when the
query raises; and feeding that frame onward makes
`get_related_queries_pipeline` fail with the `AssertionError` of
`unpack_related_queries_response` (a DataFrame is not a dict), so the
pipeline never returns a result built from a failed query. -/
theorem get_related_queries_total_spec (outcome : Except String RelResponse) :
    (∀ r, outcome = Except.ok r → get_related_queries outcome = RelValue.dict r) ∧
    (∀ e, outcome = Except.error e →
      get_related_queries outcome = RelValue.frame emptyRelDF ∧
      ∀ geo_description ts, get_related_queries_pipeline outcome geo_description ts
          = Except.error "AssertionError: Empty response. Try again.") := by
  constructor
  · intro r hr
    rw [hr]
    rfl
  · intro e he
    rw [he]
    exact ⟨rfl, fun geo_description ts => rfl⟩

theorem get_related_queries_total_spec_witness :
    get_related_queries (Except.error "ResponseError: code 429") = RelValue.frame emptyRelDF ∧
    get_related_queries_pipeline (Except.error "ResponseError: code 429") "global" "2021-01-01"
      = Except.error "AssertionError: Empty response. Try again." := by
  have h := (get_related_queries_total_spec (Except.error "ResponseError: code 429")).2
    "ResponseError: code 429" rfl
  exact ⟨h.1, h.2 "global" "2021-01-01"⟩

theorem runAttempts_zero {δ : Type} (res : Nat → Except String δ) (a : Nat) (t : Int) :
    runAttempts res a 0 t = (t, [], none) := rfl

theorem runAttempts_err {δ : Type} (res : Nat → Except String δ) (a fuel : Nat) (t : Int)
    (e : String) (h : res a = Except.error e) :
    runAttempts res a (fuel + 1) t =
      ((runAttempts res (a + 1) fuel (t + 3)).1,
        { lo := t - 3, hi := t + 3, success := false } ::
          (runAttempts res (a + 1) fuel (t + 3)).2.1,
        (runAttempts res (a + 1) fuel (t + 3)).2.2) := by
  simp only [runAttempts, h]

theorem runAttempts_ok {δ : Type} (res : Nat → Except String δ) (a fuel : Nat) (t : Int)
    (d : δ) (h : res a = Except.ok d) :
    runAttempts res a (fuel + 1) t =
      (t, [{ lo := t - 3, hi := t + 3, success := true }], some d) := by
  simp only [runAttempts, h]

theorem runAttempts_length_le {δ : Type} (res : Nat → Except String δ) :
    ∀ (fuel a : Nat) (t : Int), (runAttempts res a fuel t).2.1.length ≤ fuel := by
  intro fuel
  induction fuel with
  | zero => intro a t; rw [runAttempts_zero]; exact Nat.le_refl 0
  | succ fuel ih =>
    intro a t
    cases hr : res a with
    | error e =>
      rw [runAttempts_err res a fuel t e hr]
      have := ih (a + 1) (t + 3)
      simp only [List.length_cons]
      omega
    | ok d =>
      rw [runAttempts_ok res a fuel t d hr]
      simp

theorem runAttempts_success_last {δ : Type} (res : Nat → Except String δ) :
    ∀ (fuel a : Nat) (t : Int) (i : Nat) (h : i < (runAttempts res a fuel t).2.1.length),
      ((runAttempts res a fuel t).2.1.get ⟨i, h⟩).success = true →
      i + 1 = (runAttempts res a fuel t).2.1.length := by
  intro fuel
  induction fuel with
  | zero =>
    intro a t i h
    rw [runAttempts_zero] at h
    exact absurd h (Nat.not_lt_zero i)
  | succ fuel ih =>
    intro a t i
    cases hr : res a with
    | ok d =>
      rw [runAttempts_ok res a fuel t d hr]
      intro h _
      simp only [List.length_singleton] at h ⊢
      omega
    | error e =>
      rw [runAttempts_err res a fuel t e hr]
      intro h hs
      match i with
      | 0 => simp at hs
      | Nat.succ i =>
        simp only [List.length_cons] at h
        rw [List.get_cons_succ] at hs
        have := ih (a + 1) (t + 3) i (by omega) hs
        simp only [List.length_cons]
        omega

theorem runAttempts_all_fail {δ : Type} (res : Nat → Except String δ) :
    ∀ (fuel a : Nat) (t : Int),
      (∀ i, i < fuel → exceptOk (res (a + i)) = false) →
      (runAttempts res a fuel t).2.2 = none := by
  intro fuel
  induction fuel with
  | zero => intro a t _; rw [runAttempts_zero]
  | succ fuel ih =>
    intro a t hfail
    cases hr : res a with
    | ok d =>
      have h0 := hfail 0 (Nat.succ_pos fuel)
      rw [Nat.add_zero, hr] at h0
      exact absurd h0 (by simp [exceptOk])
    | error e =>
      rw [runAttempts_err res a fuel t e hr]
      apply ih (a + 1) (t + 3)
      intro i hi
      have := hfail (i + 1) (by omega)
      have harr : a + (i + 1) = a + 1 + i := by omega
      rwa [harr] at this

theorem runAttempts_first_success {δ : Type} (res : Nat → Except String δ) :
    ∀ (fuel a k : Nat) (t : Int) (d : δ),
      k < fuel → (∀ i, i < k → exceptOk (res (a + i)) = false) →
      res (a + k) = Except.ok d →
      (runAttempts res a fuel t).2.2 = some d := by
  intro fuel
  induction fuel with
  | zero => intro a k t d hk; exact absurd hk (Nat.not_lt_zero k)
  | succ fuel ih =>
    intro a k t d hk hfail hok
    match k with
    | 0 =>
      rw [Nat.add_zero] at hok
      rw [runAttempts_ok res a fuel t d hok]
    | Nat.succ k =>
      have h0 := hfail 0 (Nat.succ_pos k)
      rw [Nat.add_zero] at h0
      cases hr : res a with
      | ok d0 => rw [hr] at h0; exact absurd h0 (by simp [exceptOk])
      | error e =>
        rw [runAttempts_err res a fuel t e hr]
        apply ih (a + 1) k (t + 3) d (by omega)
        · intro i hi
          have := hfail (i + 1) (by omega)
          have harr : a + (i + 1) = a + 1 + i := by omega
          rwa [harr] at this
        · have harr : a + (k + 1) = a + 1 + k := by omega
          rwa [harr] at hok

theorem failCount_nil : failCount [] = 0 := rfl

theorem failCount_cons (r : AttemptRec) (recs : List AttemptRec) :
    failCount (r :: recs) = (if r.success = true then 0 else 1) + failCount recs := by
  unfold failCount
  cases hs : r.success <;> simp [List.filter_cons, hs] <;> omega

theorem failCount_append (L1 L2 : List AttemptRec) :
    failCount (L1 ++ L2) = failCount L1 + failCount L2 := by
  unfold failCount
  rw [List.filter_append, List.length_append]

theorem runAttempts_spec {δ : Type} (res : Nat → Except String δ) :
    ∀ (fuel a : Nat) (t : Int),
      (runAttempts res a fuel t).1
          = t + 3 * (failCount (runAttempts res a fuel t).2.1 : Int) ∧
      logSpec t (runAttempts res a fuel t).2.1 := by
  intro fuel
  induction fuel with
  | zero =>
    intro a t
    rw [runAttempts_zero]
    exact ⟨by simp [failCount_nil], trivial⟩
  | succ fuel ih =>
    intro a t
    cases hr : res a with
    | ok d =>
      rw [runAttempts_ok res a fuel t d hr]
      constructor
      · simp [failCount_cons, failCount_nil]
      · exact ⟨rfl, rfl, trivial⟩
    | error e =>
      rw [runAttempts_err res a fuel t e hr]
      have IH := ih (a + 1) (t + 3)
      constructor
      · show (runAttempts res (a + 1) fuel (t + 3)).1 = _
        rw [IH.1, failCount_cons]
        simp only [Bool.false_eq_true, if_false]
        push_cast
        ring
      · exact ⟨rfl, rfl, by simpa using IH.2⟩

theorem logSpec_append (t : Int) (L1 L2 : List AttemptRec)
    (h1 : logSpec t L1) (h2 : logSpec (t + 3 * (failCount L1 : Int)) L2) :
    logSpec t (L1 ++ L2) := by
  induction L1 generalizing t with
  | nil =>
    simp only [List.nil_append]
    simpa [failCount_nil] using h2
  | cons r L1 ih =>
    obtain ⟨hlo, hhi, hrest⟩ := h1
    refine ⟨hlo, hhi, ?_⟩
    apply ih _ hrest
    have hfc : (t + (if r.success = true then 0 else 3)) + 3 * (failCount L1 : Int)
        = t + 3 * (failCount (r :: L1) : Int) := by
      rw [failCount_cons]
      cases hs : r.success
      · simp only [hs, Bool.false_eq_true, if_false]
        push_cast
        ring
      · simp only [hs, if_true]
        push_cast
        ring
    rw [hfc]
    exact h2

theorem logSpec_get (L : List AttemptRec) :
    ∀ (t : Int), logSpec t L →
      ∀ i (h : i < L.length),
        (L.get ⟨i, h⟩).lo = t - 3 + 3 * (failCount (L.take i) : Int) ∧
        (L.get ⟨i, h⟩).hi = (L.get ⟨i, h⟩).lo + 6 := by
  induction L with
  | nil => intro t _ i h; exact absurd h (Nat.not_lt_zero i)
  | cons r rest ih =>
    intro t hspec i h
    obtain ⟨hlo, hhi, hrest⟩ := hspec
    match i with
    | 0 =>
      refine ⟨by simpa [failCount_nil] using hlo, ?_⟩
      show r.hi = r.lo + 6
      rw [hlo, hhi]
      ring
    | Nat.succ i =>
      simp only [List.length_cons] at h
      have IH := ih (t + (if r.success = true then 0 else 3)) hrest i (by omega)
      simp only [List.get_cons_succ, List.take_succ_cons]
      refine ⟨?_, IH.2⟩
      rw [IH.1, failCount_cons]
      cases hs : r.success
      · simp only [hs, Bool.false_eq_true, if_false]
        push_cast
        ring
      · simp only [hs, if_true]
        push_cast
        ring

theorem runBatch_attempts {δ : Type} (res : Nat → Except String δ) (mR : Nat)
    (b : List String) (t : Int) :
    ((runBatch res mR b t).2).attempts = (runAttempts res 0 mR t).2.1 := by
  unfold runBatch
  cases h : (runAttempts res 0 mR t).2.2 <;> simp [h]

theorem runBatch_fst {δ : Type} (res : Nat → Except String δ) (mR : Nat)
    (b : List String) (t : Int) :
    (runBatch res mR b t).1 = (runAttempts res 0 mR t).1 := by
  unfold runBatch
  cases h : (runAttempts res 0 mR t).2.2 <;> simp [h]

theorem runBatch_event_none {δ : Type} (res : Nat → Except String δ) (mR : Nat)
    (b : List String) (t : Int) (h : (runAttempts res 0 mR t).2.2 = none) :
    ((runBatch res mR b t).2).event = WriteEvent.unsuccessful b := by
  unfold runBatch
  simp [h]

theorem runBatch_event_some {δ : Type} (res : Nat → Except String δ) (mR : Nat)
    (b : List String) (t : Int) (d : δ) (h : (runAttempts res 0 mR t).2.2 = some d) :
    ((runBatch res mR b t).2).event = WriteEvent.main d := by
  unfold runBatch
  simp [h]

theorem runBatches_length {δ : Type} (res : Nat → Nat → Except String δ) (mR : Nat) :
    ∀ (batches : List (List String)) (bIdx : Nat) (t : Int),
      ((runBatches res batches bIdx mR t).2).length = batches.length := by
  intro batches
  induction batches with
  | nil => intro bIdx t; rfl
  | cons b bs ih =>
    intro bIdx t
    simp only [runBatches, List.length_cons, ih]

theorem runBatches_forall {δ : Type} (res : Nat → Nat → Except String δ) (mR : Nat) :
    ∀ (batches : List (List String)) (bIdx : Nat) (t : Int),
      ∀ br ∈ (runBatches res batches bIdx mR t).2,
        ∃ (r : Nat → Except String δ) (b : List String) (t0 : Int),
          br = (runBatch r mR b t0).2 := by
  intro batches
  induction batches with
  | nil => intro bIdx t br hbr; exact absurd hbr (List.not_mem_nil br)
  | cons b bs ih =>
    intro bIdx t br hbr
    simp only [runBatches] at hbr
    rcases List.mem_cons.mp hbr with hbr | hbr
    · exact ⟨res bIdx, b, t, hbr⟩
    · exact ih (bIdx + 1) _ br hbr

theorem runBatches_get {δ : Type} (res : Nat → Nat → Except String δ) (mR : Nat) :
    ∀ (batches : List (List String)) (bIdx : Nat) (t : Int) (j : Nat)
      (hj : j < batches.length) (hl : j < ((runBatches res batches bIdx mR t).2).length),
      ∃ t0 : Int, ((runBatches res batches bIdx mR t).2).get ⟨j, hl⟩
          = (runBatch (res (bIdx + j)) mR (batches.get ⟨j, hj⟩) t0).2 := by
  intro batches
  induction batches with
  | nil => intro bIdx t j hj; exact absurd hj (Nat.not_lt_zero j)
  | cons b bs ih =>
    intro bIdx t j hj hl
    match j with
    | 0 => exact ⟨t, rfl⟩
    | Nat.succ j =>
      simp only [List.length_cons] at hj
      have hl2 : j < ((runBatches res bs (bIdx + 1) mR
          (runBatch (res bIdx) mR b t).1).2).length := by
        rw [runBatches_length]
        omega
      obtain ⟨t0, hget⟩ := ih (bIdx + 1) (runBatch (res bIdx) mR b t).1 j (by omega) hl2
      refine ⟨t0, ?_⟩
      have harr : bIdx + (j + 1) = bIdx + 1 + j := by omega
      rw [harr]
      simp only [runBatches, List.get_cons_succ]
      exact hget

theorem globalLog_nil {δ : Type} : globalLog ([] : List (BatchRun δ)) = [] := rfl

theorem globalLog_cons {δ : Type} (br : BatchRun δ) (runs : List (BatchRun δ)) :
    globalLog (br :: runs) = br.attempts ++ globalLog runs := by
  unfold globalLog
  rw [List.map_cons, List.flatten_cons]

theorem runBatches_logSpec {δ : Type} (res : Nat → Nat → Except String δ) (mR : Nat) :
    ∀ (batches : List (List String)) (bIdx : Nat) (t : Int),
      logSpec t (globalLog (runBatches res batches bIdx mR t).2) ∧
      (runBatches res batches bIdx mR t).1
        = t + 3 * (failCount (globalLog (runBatches res batches bIdx mR t).2) : Int) := by
  intro batches
  induction batches with
  | nil =>
    intro bIdx t
    exact ⟨trivial, by simp [runBatches, globalLog_nil, failCount_nil]⟩
  | cons b bs ih =>
    intro bIdx t
    have hatt := runBatch_attempts (res bIdx) mR b t
    have hA := runAttempts_spec (res bIdx) mR 0 t
    have hfst := runBatch_fst (res bIdx) mR b t
    have IH := ih (bIdx + 1) (runBatch (res bIdx) mR b t).1
    constructor
    · show logSpec t (globalLog ((runBatch (res bIdx) mR b t).2
        :: (runBatches res bs (bIdx + 1) mR (runBatch (res bIdx) mR b t).1).2))
      rw [globalLog_cons, hatt]
      apply logSpec_append t _ _ hA.2
      have ht : t + 3 * (failCount (runAttempts (res bIdx) 0 mR t).2.1 : Int)
          = (runBatch (res bIdx) mR b t).1 := by
        rw [hfst, hA.1]
      rw [ht]
      exact IH.1
    · show (runBatches res bs (bIdx + 1) mR (runBatch (res bIdx) mR b t).1).1 = _
      rw [IH.2]
      show _ = t + 3 * (failCount (globalLog ((runBatch (res bIdx) mR b t).2
        :: (runBatches res bs (bIdx + 1) mR (runBatch (res bIdx) mR b t).1).2)) : Int)
      rw [globalLog_cons, failCount_append, hatt, hfst, hA.1]
      push_cast
      ring

theorem failCount_take_le_all (L : List AttemptRec) (i : Nat) :
    failCount (L.take i) ≤ failCount L := by
  unfold failCount
  exact List.Sublist.length_le (List.Sublist.filter _ (List.take_sublist i L))

theorem failCount_take_mono (L : List AttemptRec) (i j : Nat) (hij : i ≤ j) :
    failCount (L.take i) ≤ failCount (L.take j) := by
  have h : L.take i = (L.take j).take i := by
    rw [List.take_take, Nat.min_eq_left hij]
  rw [h]
  exact failCount_take_le_all (L.take j) i

theorem failCount_take_succ (L : List AttemptRec) (i : Nat) (h : i < L.length)
    (hs : (L.get ⟨i, h⟩).success = false) :
    failCount (L.take (i + 1)) = failCount (L.take i) + 1 := by
  have hg : L[i]? = some (L.get ⟨i, h⟩) := by
    rw [List.getElem?_eq_getElem h, List.get_eq_getElem]
  rw [List.take_succ, hg, failCount_append,
    show Option.toList (some (L.get ⟨i, h⟩)) = [L.get ⟨i, h⟩] from rfl,
    failCount_cons, failCount_nil, hs]
  simp

theorem giotRuns_eq {δ : Type} (res : Nat → Nat → Except String δ)
    (keyword_list : List String) (max_retries : Nat) (timeout : Int) :
    giotRuns res keyword_list max_retries timeout
      = (runBatches res (list_batch keyword_list 5) 0 max_retries timeout).2 := rfl

/-- C2: within `get_interest_over_time`, each keyword batch triggers at most
`max_retries` calls to `query_googletrends`, and a successful attempt is
always the last attempt made for its batch (the retry loop exits via
`break` after the first success). -/
theorem giot_retry_bound {δ : Type} (res : Nat → Nat → Except String δ)
    (keyword_list : List String) (max_retries : Nat) (timeout : Int) :
    ∀ br ∈ giotRuns res keyword_list max_retries timeout,
      br.attempts.length ≤ max_retries ∧
      ∀ i (h : i < br.attempts.length),
        (br.attempts.get ⟨i, h⟩).success = true → i + 1 = br.attempts.length := by
  intro br hbr
  obtain ⟨r, b, t0, heq⟩ :=
    runBatches_forall res max_retries (list_batch keyword_list 5) 0 timeout br hbr
  subst heq
  rw [runBatch_attempts]
  exact ⟨runAttempts_length_le r max_retries 0 t0,
    fun i h hs => runAttempts_success_last r max_retries 0 t0 i h hs⟩

theorem giot_retry_bound_witness :
    (({ batch := ["solar"], attempts := [⟨17, 23, false⟩, ⟨20, 26, true⟩],
        event := WriteEvent.main 7 } : BatchRun Nat)
      ∈ giotRuns (fun _ i => if i = 1 then Except.ok 7 else Except.error "boom")
          ["solar"] 3 20) ∧
    ([⟨17, 23, false⟩, ⟨20, 26, true⟩] : List AttemptRec).length ≤ 3 ∧
    1 + 1 = ([⟨17, 23, false⟩, ⟨20, 26, true⟩] : List AttemptRec).length := by
  refine ⟨by decide, ?_, ?_⟩
  · exact (giot_retry_bound (fun _ i => if i = 1 then Except.ok 7 else Except.error "boom")
      ["solar"] 3 20
      { batch := ["solar"], attempts := [⟨17, 23, false⟩, ⟨20, 26, true⟩],
        event := WriteEvent.main 7 } (by decide)).1
  · exact (giot_retry_bound (fun _ i => if i = 1 then Except.ok 7 else Except.error "boom")
      ["solar"] 3 20
      { batch := ["solar"], attempts := [⟨17, 23, false⟩, ⟨20, 26, true⟩],
        event := WriteEvent.main 7 } (by decide)).2 1 (by decide) (by decide)

/-- C3: a batch whose query fails on all `max_retries` attempts produces
exactly the fallback write of the batch itself (to `filepath_unsuccessful`),
and a batch whose query first succeeds at some attempt within the retry
budget produces exactly the write of the successful query result (to the
main `filepath`). -/
theorem giot_failure_sink {δ : Type} (res : Nat → Nat → Except String δ)
    (keyword_list : List String) (max_retries : Nat) (timeout : Int) (bIdx : Nat)
    (h : bIdx < (giotRuns res keyword_list max_retries timeout).length) :
    ((∀ i, i < max_retries → exceptOk (res bIdx i) = false) →
      ((giotRuns res keyword_list max_retries timeout).get ⟨bIdx, h⟩).event
        = WriteEvent.unsuccessful
            (((giotRuns res keyword_list max_retries timeout).get ⟨bIdx, h⟩).batch)) ∧
    (∀ k d, k < max_retries → (∀ i, i < k → exceptOk (res bIdx i) = false) →
      res bIdx k = Except.ok d →
      ((giotRuns res keyword_list max_retries timeout).get ⟨bIdx, h⟩).event
        = WriteEvent.main d) := by
  have hj : bIdx < (list_batch keyword_list 5).length := by
    have hlen := runBatches_length res max_retries (list_batch keyword_list 5) 0 timeout
    rw [giotRuns_eq, hlen] at h
    exact h
  obtain ⟨t0, hget⟩ :=
    runBatches_get res max_retries (list_batch keyword_list 5) 0 timeout bIdx hj h
  have hG : (giotRuns res keyword_list max_retries timeout).get ⟨bIdx, h⟩
      = (runBatch (res (0 + bIdx)) max_retries
          ((list_batch keyword_list 5).get ⟨bIdx, hj⟩) t0).2 := hget
  rw [Nat.zero_add] at hG
  rw [hG]
  constructor
  · intro hfail
    rw [runBatch_batch]
    apply runBatch_event_none
    apply runAttempts_all_fail
    intro i hi
    rw [Nat.zero_add]
    exact hfail i hi
  · intro k d hk hfail hok
    apply runBatch_event_some
    apply runAttempts_first_success (res bIdx) max_retries 0 k t0 d hk
    · intro i hi
      rw [Nat.zero_add]
      exact hfail i hi
    · rw [Nat.zero_add]
      exact hok

theorem giot_failure_sink_witness :
    (0 : Nat) < ((giotRuns (fun b _ => if b = 0 then Except.error "quota" else Except.ok 42)
      ["k1", "k2", "k3", "k4", "k5", "k6"] 2 20).length) ∧
    ((giotRuns (fun b _ => if b = 0 then Except.error "quota" else Except.ok 42)
        ["k1", "k2", "k3", "k4", "k5", "k6"] 2 20).get ⟨0, by decide⟩).event
      = WriteEvent.unsuccessful ["k1", "k2", "k3", "k4", "k5"] ∧
    ((giotRuns (fun b _ => if b = 0 then Except.error "quota" else Except.ok 42)
        ["k1", "k2", "k3", "k4", "k5", "k6"] 2 20).get ⟨1, by decide⟩).event
      = WriteEvent.main 42 := by
  refine ⟨by decide, ?_, ?_⟩
  · have h := (giot_failure_sink
      (fun b _ => if b = 0 then Except.error "quota" else Except.ok 42)
      ["k1", "k2", "k3", "k4", "k5", "k6"] 2 20 0 (by decide)).1 (by decide)
    rw [h]
    decide
  · exact (giot_failure_sink
      (fun b _ => if b = 0 then Except.error "quota" else Except.ok 42)
      ["k1", "k2", "k3", "k4", "k5", "k6"] 2 20 1 (by decide)).2 0 42
      (by decide) (by decide) rfl

/-- C4: across the whole `get_interest_over_time` run, every attempt draws
its sleep from the width-6 interval `[timeout-3, timeout+3]` for its current
timeout; since every failed attempt adds 3 to the timeout and nothing ever
lowers it, the interval lower bound never decreases from one attempt to a
later one, and after a failed attempt every later attempt (within or across
batches) draws from an interval at least 3 higher. -/
theorem giot_delay_escalation {δ : Type} (res : Nat → Nat → Except String δ)
    (keyword_list : List String) (max_retries : Nat) (timeout : Int)
    (i j : Nat) (hij : i < j)
    (hj : j < (giotLog res keyword_list max_retries timeout).length) :
    ((giotLog res keyword_list max_retries timeout).get ⟨i, Nat.lt_trans hij hj⟩).hi
      = ((giotLog res keyword_list max_retries timeout).get ⟨i, Nat.lt_trans hij hj⟩).lo + 6 ∧
    ((giotLog res keyword_list max_retries timeout).get ⟨i, Nat.lt_trans hij hj⟩).lo
      ≤ ((giotLog res keyword_list max_retries timeout).get ⟨j, hj⟩).lo ∧
    (((giotLog res keyword_list max_retries timeout).get ⟨i, Nat.lt_trans hij hj⟩).success
        = false →
      ((giotLog res keyword_list max_retries timeout).get ⟨i, Nat.lt_trans hij hj⟩).lo + 3
        ≤ ((giotLog res keyword_list max_retries timeout).get ⟨j, hj⟩).lo) := by
  have hspec : logSpec timeout (giotLog res keyword_list max_retries timeout) :=
    (runBatches_logSpec res max_retries (list_batch keyword_list 5) 0 timeout).1
  have hi2 : i < (giotLog res keyword_list max_retries timeout).length := Nat.lt_trans hij hj
  have Hi := logSpec_get _ timeout hspec i hi2
  have Hj := logSpec_get _ timeout hspec j hj
  refine ⟨Hi.2, ?_, ?_⟩
  · rw [Hi.1, Hj.1]
    have hm := failCount_take_mono (giotLog res keyword_list max_retries timeout) i j
      (Nat.le_of_lt hij)
    omega
  · intro hfrec
    rw [Hi.1, Hj.1]
    have hsucc := failCount_take_succ (giotLog res keyword_list max_retries timeout) i hi2 hfrec
    have hm := failCount_take_mono (giotLog res keyword_list max_retries timeout) (i + 1) j hij
    omega

theorem giot_delay_escalation_witness :
    (0 : Nat) < 2 ∧
    2 < (giotLog (fun _ _ => (Except.error "quota" : Except String Nat))
      ["k1", "k2", "k3", "k4", "k5", "k6"] 2 20).length ∧
    ((giotLog (fun _ _ => (Except.error "quota" : Except String Nat))
      ["k1", "k2", "k3", "k4", "k5", "k6"] 2 20).get ⟨0, by decide⟩).success = false ∧
    ((giotLog (fun _ _ => (Except.error "quota" : Except String Nat))
      ["k1", "k2", "k3", "k4", "k5", "k6"] 2 20).get ⟨0, by decide⟩).lo + 3
      ≤ ((giotLog (fun _ _ => (Except.error "quota" : Except String Nat))
      ["k1", "k2", "k3", "k4", "k5", "k6"] 2 20).get ⟨2, by decide⟩).lo := by
  refine ⟨by decide, by decide, by decide, ?_⟩
  exact (giot_delay_escalation (fun _ _ => (Except.error "quota" : Except String Nat))
    ["k1", "k2", "k3", "k4", "k5", "k6"] 2 20 0 2 (by decide) (by decide)).2.2 (by decide)

/-- C10: every keyword batch that `get_interest_over_time` passes to
`query_googletrends` has length at most 5, meeting the documented
precondition of `query_googletrends` ("list of keywords, with maximum
length 5"). -/
theorem giot_batch_size (δ : Type) (res : Nat → Nat → Except String δ)
    (keyword_list : List String) (max_retries : Nat) (timeout : Int) :
    ∀ br ∈ giotRuns res keyword_list max_retries timeout, br.batch.length ≤ 5 := by
  intro br hbr
  have hmem : br.batch ∈ list_batch keyword_list 5 := by
    have hmap := runBatches_map_batch res max_retries (list_batch keyword_list 5) 0 timeout
    rw [← hmap]
    exact List.mem_map_of_mem BatchRun.batch hbr
  exact (n_batch_mem_spec 5 (by decide) keyword_list.length keyword_list (Nat.le_refl _)
    br.batch hmem).2

theorem giot_batch_size_witness :
    (({ batch := ["k1", "k2", "k3", "k4", "k5"],
        attempts := [⟨17, 23, false⟩, ⟨20, 26, false⟩],
        event := WriteEvent.unsuccessful ["k1", "k2", "k3", "k4", "k5"] } : BatchRun Nat)
      ∈ giotRuns (fun _ _ => (Except.error "quota" : Except String Nat))
          ["k1", "k2", "k3", "k4", "k5", "k6"] 2 20) ∧
    (["k1", "k2", "k3", "k4", "k5"] : List String).length ≤ 5 := by
  refine ⟨by decide, ?_⟩
  exact giot_batch_size Nat (fun _ _ => (Except.error "quota" : Except String Nat))
    ["k1", "k2", "k3", "k4", "k5", "k6"] 2 20
    { batch := ["k1", "k2", "k3", "k4", "k5"],
      attempts := [⟨17, 23, false⟩, ⟨20, 26, false⟩],
      event := WriteEvent.unsuccessful ["k1", "k2", "k3", "k4", "k5"] } (by decide)
